import Mathlib

/-!
Verification development for the bio-classifier repository
(`app/model_classification.py` and `app/app.py`).

The Python source is shallowly embedded below.  Text is `String`
(manipulated through its underlying `List Char`); Python's `None` is
`Option`; the process-wide module state (`_current_prompt`,
`_current_criteria`, the JSON file on disk) is an explicit `Store`
value; the remote OpenAI call is an oracle `RequestKwargs → Option String`
(`none` models an exception / timeout / empty reply).  Python's
Unicode-aware `str.lower`, `str.strip` and the regex classes `\w`/`\s`
are embedded at ASCII precision, which agrees with Python on every
string appearing in the source and in the theorems below.
-/

set_option maxRecDepth 10000

namespace BioClassifier

/-! ### Python string primitives -/

/-- ASCII whitespace, as recognised by `str.strip()` / `str.split()` / `\s`. -/
def isPySpace (c : Char) : Bool :=
  c == ' ' || c == '\t' || c == '\n' || c == '\r' || c == '\x0b' || c == '\x0c'

/-- A `\w` word character (ASCII fragment): alphanumeric or underscore. -/
def wordChar (c : Char) : Bool :=
  c.isAlphanum || c == '_'

/-- Embeds `str.lower()` on the character list (ASCII fragment). -/
def pylowerL (l : List Char) : List Char :=
  l.map Char.toLower

/-- Embeds `str.strip()` on the character list: drop whitespace from both ends. -/
def pystripL (l : List Char) : List Char :=
  ((l.dropWhile isPySpace).reverse.dropWhile isPySpace).reverse

/-- Embeds `str.lower()`. -/
def pylowerS (s : String) : String :=
  ⟨pylowerL s.data⟩

/-- Embeds `str.strip()`. -/
def pystripS (s : String) : String :=
  ⟨pystripL s.data⟩

/-- Does `hay` start with `pat`?  (`str.startswith`). -/
def startsL : List Char → List Char → Bool
  | [], _ => true
  | _ :: _, [] => false
  | p :: ps, c :: cs => (p == c) && startsL ps cs

/-- Python's substring containment `pat in hay`. -/
def hasSub (pat : List Char) : List Char → Bool
  | [] => startsL pat []
  | c :: t => startsL pat (c :: t) || hasSub pat t

/-- Embeds `str.split()` with no argument: split on whitespace runs, no empty parts.
`acc` holds the characters of the token currently being read, reversed. -/
def pysplitAux (acc : List Char) : List Char → List String
  | [] => if acc.isEmpty then [] else [⟨acc.reverse⟩]
  | c :: t =>
    if isPySpace c then
      if acc.isEmpty then pysplitAux [] t else (⟨acc.reverse⟩ : String) :: pysplitAux [] t
    else
      pysplitAux (c :: acc) t

/-- Embeds `str.split()`. -/
def pysplit (s : String) : List String :=
  pysplitAux [] s.data

/-- Python `a or b` where `a` is an optional string (`None` and `""` are falsy). -/
def pyOrOpt (a b : Option String) : Option String :=
  match a with
  | some s => if s = "" then b else some s
  | none => b

/-- Python `a or b` where the fallback `b` is a plain string. -/
def pyOrStr (a : Option String) (b : String) : String :=
  match a with
  | some s => if s = "" then b else s
  | none => b

/-- Keep an optional string only if it is truthy (non-`None`, non-empty). -/
def pyTruthy (a : Option String) : Option String :=
  match a with
  | some s => if s = "" then none else some s
  | none => none

/-! ### Constants from `model_classification.py` -/

/-- Embeds `DEFAULT_PROMPT_HEADER` (lines 22-24). -/
def DEFAULT_PROMPT_HEADER : String :=
  "For each numbered Instagram bio below, reply **yes** or **no**.\n\n"

/-- Embeds `DEFAULT_PROMPT_FOOTER` (lines 25-28). -/
def DEFAULT_PROMPT_FOOTER : String :=
  "\nIf the bio does **not** clearly show no affiliation with what we desire, reply **no**.\n\nReturn a single space-separated list of yes/no in the same order as the bios."

/-- Embeds `DEFAULT_CRITERIA_TEXT` (lines 31-34). -/
def DEFAULT_CRITERIA_TEXT : String :=
  "**Say yes** if the bio contains an explicit Christian signal – e.g. the words Jesus, Christ, Christian, Bible, a Scripture reference (John 3:16, 1 Cor 13:4-8, etc.), ✝️ cross emoji, \x27saved by grace\x27, \x27follower of Christ\x27, or similar.\nJesus, Christ, Christian, Bible, a Scripture reference (John 3:16, 1 Cor 13:4-8, etc.), ✝️ cross emoji, \x27saved by grace\x27, \x27follower of Christ\x27, or similar.\n"

/-- Embeds `_ALLOWED_EFFORT` (line 18). -/
def ALLOWED_EFFORT : List String :=
  ["minimal", "low", "medium", "high"]

/-- Embeds `_ALLOWED_VERBOSITY` (line 19). -/
def ALLOWED_VERBOSITY : List String :=
  ["low", "medium", "high"]

/-- Embeds `CHRISTIAN_WORDS` (lines 114-118). -/
def CHRISTIAN_WORDS : List String :=
  ["jesus", "christ", "christian", "god", "lord", "bible",
   "believer", "disciple", "faith", "saved", "born again",
   "church", "worship"]

/-- Embeds `BIBLE_BOOKS` (lines 120-131). -/
def BIBLE_BOOKS : List String :=
  ["genesis", "exodus", "leviticus", "numbers", "deuteronomy",
   "joshua", "judges", "ruth", "samuel", "kings", "chronicles", "ezra", "nehemiah", "esther",
   "job", "psalm", "psalms", "proverbs", "ecclesiastes", "song", "songs", "canticles",
   "isaiah", "jeremiah", "lamentations", "ezekiel", "daniel",
   "hosea", "joel", "amos", "obadiah", "jonah", "micah", "nahum",
   "habakkuk", "zephaniah", "haggai", "zechariah", "malachi",
   "matthew", "mark", "luke", "john", "acts", "romans",
   "corinthians", "galatians", "ephesians", "philippians", "colossians",
   "thessalonians", "timothy", "titus", "philemon", "hebrews",
   "james", "peter", "jude", "revelation", "rev"]

/-- Embeds `QUICK_KEYWORDS` (line 136): the extra flags united with `CHRISTIAN_WORDS`
and `BIBLE_BOOKS` (the Python value is a set; only membership is ever used). -/
def QUICK_KEYWORDS : List String :=
  ["†", "cross", "amen", "agtg", "jesusfreak", "bibleverse"] ++ CHRISTIAN_WORDS ++ BIBLE_BOOKS

/-! ### The compiled regex `BIBLE_PATTERN` (line 133)

`re.compile(r"\b(<books>)(?:<apos>s|s)?\b", re.I)` searched over a string.
A search succeeds iff at some position a word boundary precedes a
case-insensitive occurrence of a book name, optionally followed by a
possessive/plural suffix, followed by a word boundary. -/

/-- Case-insensitive `startsL` (re.I matching of an alternation branch). -/
def ciStarts : List Char → List Char → Bool
  | [], _ => true
  | _ :: _, [] => false
  | p :: ps, c :: cs => (p.toLower == c.toLower) && ciStarts ps cs

/-- The optional `(?:<apos>s|s)?` suffixes (apostrophe written via `Char.ofNat 39`). -/
def bibleSuffixes : List (List Char) :=
  [[Char.ofNat 39, 's'], ['s'], []]

/-- The trailing `\b`: next character is absent or not a word character
(the character just matched is always a word character). -/
def boundaryAfterB : List Char → Bool
  | [] => true
  | c :: _ => !wordChar c

/-- The leading `\b` relative to the previous character (the first matched
character is always a word character when the branch matches at all). -/
def boundaryBeforeB : Option Char → Bool
  | none => true
  | some c => !wordChar c

/-- Does the pattern body match at the head of `s`? -/
def bibleAtPos (s : List Char) : Bool :=
  BIBLE_BOOKS.any fun b =>
    bibleSuffixes.any fun suf =>
      ciStarts (b.data ++ suf) s && boundaryAfterB (s.drop (b.data ++ suf).length)

/-- Scan all start positions, tracking the previous character. -/
def bibleSearchAux (prev : Option Char) : List Char → Bool
  | [] => false
  | c :: t => (boundaryBeforeB prev && bibleAtPos (c :: t)) || bibleSearchAux (some c) t

/-- Embeds `BIBLE_PATTERN.search(bio)` as a Boolean. -/
def bibleSearch (s : List Char) : Bool :=
  bibleSearchAux none s

/-! ### Stage-1 lexical matcher (lines 155-162) -/

/-- Embeds `has_christian_keywords` for a stripped bio string:
`any(k in bio.lower() for k in QUICK_KEYWORDS) or BIBLE_PATTERN.search(bio)`. -/
def stage1MatchesBio (bio : String) : Bool :=
  QUICK_KEYWORDS.any (fun k => hasSub k.data (pylowerL bio.data)) || bibleSearch bio.data

/-! ### Instruction store (`model_classification.py` lines 36-112)

The on-disk JSON file is embedded as `FileState`: the file can be absent,
unreadable/malformed (any exception while reading or parsing), or a parsed
JSON object whose relevant keys are `criteria` and `prompt` (the
`last_updated` string plays no role in any behaviour and is not modelled). -/

inductive FileState where
  | missing : FileState
  | unreadable : FileState
  | record (criteria : Option String) (prompt : Option String) : FileState
deriving DecidableEq

/-- Embeds `_build_full_prompt` (lines 43-44). -/
def buildFullPrompt (criteriaText : String) : String :=
  DEFAULT_PROMPT_HEADER ++ criteriaText ++ "\n" ++ DEFAULT_PROMPT_FOOTER

/-- Embeds `_load_prompt_from_file` (lines 46-63): returns the FULL prompt. -/
def loadPromptFromFile : FileState → String
  | .missing => buildFullPrompt DEFAULT_CRITERIA_TEXT
  | .unreadable => buildFullPrompt DEFAULT_CRITERIA_TEXT
  | .record (some c) _ => buildFullPrompt c
  | .record none (some p) => p
  | .record none none => buildFullPrompt DEFAULT_CRITERIA_TEXT

/-- The module-level `try` block at lines 82-89: `data.get('criteria', DEFAULT_CRITERIA_TEXT)`
with fallback to the default on a missing file or any exception. -/
def initCriteria : FileState → String
  | .record (some c) _ => c
  | _ => DEFAULT_CRITERIA_TEXT

/-- The live module state: `_current_prompt`, `_current_criteria`, and the file. -/
structure Store where
  prompt : String
  criteria : String
  file : FileState
deriving DecidableEq

/-- Module import time: `_current_prompt = _load_prompt_from_file()` (line 81)
and the `_current_criteria` block (lines 82-89). -/
def initStore (f : FileState) : Store :=
  { prompt := loadPromptFromFile f, criteria := initCriteria f, file := f }

/-- Embeds `update_classification_prompt` (lines 99-108).  `saveOk` tells whether
`_save_criteria_to_file` succeeded; on success the file now holds a
`criteria` record (no `prompt` key), on failure the file is untouched.
Either way the in-memory fields are updated and the new prompt returned. -/
def updateClassificationPrompt (st : Store) (newCriteria : String) (saveOk : Bool) :
    String × Store :=
  let prompt := buildFullPrompt newCriteria
  let file := if saveOk then FileState.record (some newCriteria) none else st.file
  (prompt, { prompt := prompt, criteria := newCriteria, file := file })

/-- Embeds `reset_to_default_prompt` (lines 110-112). -/
def resetToDefaultPrompt (st : Store) (saveOk : Bool) : String × Store :=
  updateClassificationPrompt st DEFAULT_CRITERIA_TEXT saveOk

/-- A persisted record in the legacy shape: a `prompt` key and no `criteria` key. -/
def isLegacy : FileState → Bool
  | .record none (some _) => true
  | _ => false

/-! ### The batch classifier `classify_profiles` (lines 138-249)

An input dict is a `Profile`; `extra` stands for dict entries other than
`username` / `bio` / `is_christian`, which the function never touches.
The `quick_results` dict is a partial map `String → Option String`
(the code only ever writes and looks up single keys). -/

structure Profile where
  username : String
  bio : Option String
  extra : List (String × String)
deriving DecidableEq

/-- Environment-configurable defaults (lines 14-16). -/
structure EnvConfig where
  modelDefault : String
  effortDefault : Option String
  verbosityDefault : Option String

/-- The keyword arguments handed to `client.responses.create` (lines 192-202):
the model name, the combined instruction/payload input, and the optional
`reasoning.effort` / `text.verbosity` values. -/
structure RequestKwargs where
  model : String
  input : String
  reasoning : Option String
  text : Option String
deriving DecidableEq

/-- Embeds `bio = (item["bio"] or "").strip()` (line 155). -/
def bioOf (it : Profile) : String :=
  pystripS (it.bio.getD "")

/-- Embeds `clean = re.sub(r"[^\w\s]", " ", bio).strip()` (line 156). -/
def cleanOf (it : Profile) : String :=
  pystripS ⟨(bioOf it).data.map fun c => if wordChar c || isPySpace c then c else ' '⟩

/-- Embeds `has_christian_keywords` for one input item (lines 159-162). -/
def profileMatches (it : Profile) : Bool :=
  stage1MatchesBio (bioOf it)

/-- The empty `quick_results` dict. -/
def emptyDict : String → Option String :=
  fun _ => none

/-- Embeds `quick_results[k] = v`. -/
def dictUpdate (d : String → Option String) (k v : String) : String → Option String :=
  fun u => if u = k then some v else d u

/-- The stage-1 loop (lines 153-170), started at index `i`, returning the
`quick_results` dict, `unsure_bios`, and `unsure_indices`. -/
def stage1Loop : Nat → List Profile → (String → Option String) →
    (String → Option String) × List String × List Nat
  | _, [], qr => (qr, [], [])
  | i, it :: rest, qr =>
    if profileMatches it then
      stage1Loop (i + 1) rest (dictUpdate qr it.username "yes")
    else
      let r := stage1Loop (i + 1) rest (dictUpdate qr it.username "no")
      (r.1, cleanOf it :: r.2.1, i :: r.2.2)

/-- Stage 1 over the whole batch. -/
def stage1Of (items : List Profile) :
    (String → Option String) × List String × List Nat :=
  stage1Loop 0 items emptyDict

/-- Embeds `payload = "\n".join(f"{i+1}) {b}" for i, b in enumerate(unsure_bios))` (line 178). -/
def payloadOf (unsureBios : List String) : String :=
  String.intercalate "\n" (unsureBios.enum.map fun p => toString (p.1 + 1) ++ ") " ++ p.2)

/-- Effort resolution (lines 182-185): parameter `or` environment default,
then `.lower().strip()`, dropped unless in the allow-list. -/
def resolveEffort (reasoningEffort envDefault : Option String) : Option String :=
  match pyOrOpt reasoningEffort envDefault with
  | some s =>
    let t := pystripS (pylowerS s)
    if t ∈ ALLOWED_EFFORT then some t else none
  | none => none

/-- Verbosity resolution (lines 187-190). -/
def resolveVerbosity (verbosity envDefault : Option String) : Option String :=
  match pyOrOpt verbosity envDefault with
  | some s =>
    let t := pystripS (pylowerS s)
    if t ∈ ALLOWED_VERBOSITY then some t else none
  | none => none

/-- Embeds `request_kwargs` construction (lines 180-200): `selected_model`,
the combined input, and the two conditionally-included fields
(`if effort:` / `if verb:`). -/
def buildRequest (prompt : String) (unsureBios : List String)
    (model effort verbosity : Option String) (cfg : EnvConfig) : RequestKwargs :=
  { model := pystripS (pyOrStr model cfg.modelDefault)
    input := prompt ++ "\n\n" ++ payloadOf unsureBios
    reasoning := pyTruthy (resolveEffort effort cfg.effortDefault)
    text := pyTruthy (resolveVerbosity verbosity cfg.verbosityDefault) }

/-- The request sent by one `classify_profiles` call. -/
def requestOf (items : List Profile) (prompt : String)
    (model effort verbosity : Option String) (cfg : EnvConfig) : RequestKwargs :=
  buildRequest prompt (stage1Of items).2.1 model effort verbosity cfg

/-- Verdict-token normalisation (lines 229-232):
`"yes" if f.strip().lower().startswith("y") else "no"`. -/
def normalizeFlag (f : String) : String :=
  if startsL ['y'] (pylowerL (pystripL f.data)) then "yes" else "no"

/-- Reply handling (lines 206-236): `none` is the `except` path (any raise or
timeout), giving `["no"] * n`; otherwise the text is stripped and whitespace-
split, a token-count mismatch replaces the list by `["no"] * n`, and every
token is normalised. -/
def computeFlags (reply : Option String) (n : Nat) : List String :=
  match reply with
  | none => List.replicate n "no"
  | some txt =>
    let flags := pysplit (pystripS txt)
    if flags.length ≠ n then (List.replicate n "no").map normalizeFlag
    else flags.map normalizeFlag

/-- Embeds `profile_data[original_index]["username"]` (line 241). -/
def usernameAt (items : List Profile) (idx : Nat) : String :=
  ((items.get? idx).map Profile.username).getD ""

/-- The merge loop (lines 239-242): write `flag.lower()` for each
`(original_index, flag)` pair. -/
def applyFlags (items : List Profile) :
    (String → Option String) → List (Nat × String) → (String → Option String)
  | qr, [] => qr
  | qr, (idx, flag) :: rest =>
    applyFlags items (dictUpdate qr (usernameAt items idx) (pylowerS flag)) rest

/-- The `quick_results` dict at the end of the call: stage-1 results,
overwritten by the stage-2 flags when `unsure_bios` was non-empty. -/
def finalDict (items : List Profile) (prompt : String)
    (model effort verbosity : Option String) (cfg : EnvConfig)
    (llm : RequestKwargs → Option String) : String → Option String :=
  if (stage1Of items).2.1.isEmpty then (stage1Of items).1
  else
    applyFlags items (stage1Of items).1
      ((stage1Of items).2.2.zip
        (computeFlags (llm (requestOf items prompt model effort verbosity cfg))
          (stage1Of items).2.1.length))

/-- The attach loop (lines 245-246): pair every input item with
`quick_results.get(item["username"], "no")`. -/
def attachVerdicts (items : List Profile) (qr : String → Option String) :
    List (Profile × String) :=
  items.map fun it => (it, (qr it.username).getD "no")

/-- The return expression (lines 248-249). -/
def yesList (ann : List (Profile × String)) : List String :=
  (ann.filter fun p => p.2 == "yes").map fun p => p.1.username

/-- Result of one call: the items with their attached `is_christian` value,
the returned username list, and how many times the remote service was hit. -/
structure ClassifyResult where
  annotated : List (Profile × String)
  yeses : List String
  llmCalls : Nat
deriving DecidableEq

/-- Embeds `classify_profiles` (lines 138-249). -/
def classifyProfiles (items : List Profile) (prompt : String)
    (model effort verbosity : Option String) (cfg : EnvConfig)
    (llm : RequestKwargs → Option String) : ClassifyResult :=
  let qr := finalDict items prompt model effort verbosity cfg llm
  { annotated := attachVerdicts items qr
    yeses := yesList (attachVerdicts items qr)
    llmCalls := if (stage1Of items).2.1.isEmpty then 0 else 1 }

/-! ### The HTTP handler `classify` (`app/app.py` lines 27-46) -/

/-- Embeds `payload = [{"username": str(i), "bio": b} for i, b in enumerate(req.bios)]`. -/
def payloadProfiles (bios : List String) : List Profile :=
  bios.enum.map fun p => { username := toString p.1, bio := some p.2, extra := [] }

/-- The `/classify` handler.  `criteria` is the optional per-request override;
`raises` says whether the inner `classify_profiles` call raised (the result is
then `none`).  On the override path the module state is mutated, the call runs
against the mutated state, and the `finally` block restores both fields. -/
def classifyHandler (st : Store) (bios : List String) (criteria : Option String)
    (cfg : EnvConfig) (llm : RequestKwargs → Option String) (raises : Bool) :
    Option (List String) × Store :=
  let payload := payloadProfiles bios
  match criteria with
  | some c =>
    if pystripS c ≠ "" then
      let stOverride := { st with criteria := c, prompt := buildFullPrompt c }
      let result :=
        if raises then none
        else some (classifyProfiles payload stOverride.prompt none none none cfg llm).yeses
      let stRestored := { stOverride with criteria := st.criteria, prompt := st.prompt }
      (result, stRestored)
    else
      (if raises then none
       else some (classifyProfiles payload st.prompt none none none cfg llm).yeses, st)
  | none =>
    (if raises then none
     else some (classifyProfiles payload st.prompt none none none cfg llm).yeses, st)

/-! ### Specification predicates -/

/-- Every value stored in a `quick_results` dict is a final verdict. -/
def DictYN (qr : String → Option String) : Prop :=
  ∀ u w, qr u = some w → w = "yes" ∨ w = "no"

/-! ### Store lemmas and theorems -/

/-- C7: At process startup the live criteria value is taken from the persisted
record's `criteria` key, and falls back to the built-in default when the file
is missing, when reading or parsing it fails, and when the record lacks a
`criteria` key; `initCriteria` is total, so no error propagates. -/
theorem startup_criteria_fallback :
    (initStore FileState.missing).criteria = DEFAULT_CRITERIA_TEXT
    ∧ (initStore FileState.unreadable).criteria = DEFAULT_CRITERIA_TEXT
    ∧ (∀ p, (initStore (FileState.record none p)).criteria = DEFAULT_CRITERIA_TEXT)
    ∧ (∀ c p, (initStore (FileState.record (some c) p)).criteria = c) := by
  refine ⟨rfl, rfl, fun p => ?_, fun c p => rfl⟩
  cases p <;> rfl

/-- C8: `update_classification_prompt` replaces the live criteria, rebuilds the
full prompt, returns it, and persists on success; when persistence fails the
in-memory fields are updated all the same and nothing is raised (the function
is total and its in-memory effect does not depend on `saveOk`). -/
theorem update_criteria_in_memory :
    ∀ (st : Store) (newCriteria : String) (saveOk : Bool),
      (updateClassificationPrompt st newCriteria saveOk).2.criteria = newCriteria
      ∧ (updateClassificationPrompt st newCriteria saveOk).2.prompt = buildFullPrompt newCriteria
      ∧ (updateClassificationPrompt st newCriteria saveOk).1 = buildFullPrompt newCriteria
      ∧ (updateClassificationPrompt st newCriteria true).2.file
          = FileState.record (some newCriteria) none
      ∧ (updateClassificationPrompt st newCriteria false).2.file = st.file := by
  intro st newCriteria saveOk
  exact ⟨rfl, rfl, rfl, rfl, rfl⟩

/-- C5 counterexample: after loading a legacy record (a `prompt` key and no
`criteria` key), the live full prompt is the stored text verbatim while the
live criteria falls back to the default, so
`full_instruction = header + criteria + footer` fails. -/
theorem prompt_invariant_fails_on_legacy :
    (initStore (FileState.record none (some "x"))).prompt ≠
      buildFullPrompt (initStore (FileState.record none (some "x"))).criteria := by
  decide

/-- C5 amended: the invariant
`full_instruction = header + criteria + "\n" + footer` holds after startup
from every non-legacy file state and after every update and reset; after
loading a legacy record the full instruction is instead the stored historical
prompt verbatim (until the first update). -/
theorem prompt_invariant_amended :
    (∀ f, isLegacy f = false →
      (initStore f).prompt = buildFullPrompt (initStore f).criteria)
    ∧ (∀ (st : Store) (newCriteria : String) (saveOk : Bool),
        (updateClassificationPrompt st newCriteria saveOk).2.prompt
          = buildFullPrompt (updateClassificationPrompt st newCriteria saveOk).2.criteria)
    ∧ (∀ (st : Store) (saveOk : Bool),
        (resetToDefaultPrompt st saveOk).2.prompt
          = buildFullPrompt (resetToDefaultPrompt st saveOk).2.criteria)
    ∧ (∀ p, (initStore (FileState.record none (some p))).prompt = p) := by
  refine ⟨?_, fun st n ok => rfl, fun st ok => rfl, fun p => rfl⟩
  intro f h
  cases f with
  | missing => rfl
  | unreadable => rfl
  | record oc op =>
    cases oc with
    | some c => rfl
    | none =>
      cases op with
      | none => rfl
      | some p => simp [isLegacy] at h

/-- C5 witness: the amended invariant applied at the missing-file startup. -/
theorem prompt_invariant_amended_witness :
    (initStore FileState.missing).prompt
      = buildFullPrompt (initStore FileState.missing).criteria :=
  prompt_invariant_amended.1 FileState.missing rfl

/-- C4: a non-blank per-request criteria override is used (via the module
state) as the effective instruction for exactly that call, the module state
is restored on every exit path of the `try`/`finally` (including when the
inner call raises), and a subsequent call therefore behaves exactly as if the
overriding call had never happened. -/
theorem override_call_scoped :
    ∀ (st : Store) (bios : List String) (c : String) (cfg : EnvConfig)
      (llm : RequestKwargs → Option String) (raises : Bool),
      pystripS c ≠ "" →
      (classifyHandler st bios (some c) cfg llm raises).2 = st
      ∧ (classifyHandler st bios (some c) cfg llm false).1 =
          some (classifyProfiles (payloadProfiles bios) (buildFullPrompt c)
                  none none none cfg llm).yeses
      ∧ (classifyHandler st bios (some c) cfg llm true).1 = none
      ∧ (∀ (bios2 : List String) (criteria2 : Option String)
          (llm2 : RequestKwargs → Option String) (raises2 : Bool),
          classifyHandler (classifyHandler st bios (some c) cfg llm raises).2
              bios2 criteria2 cfg llm2 raises2
            = classifyHandler st bios2 criteria2 cfg llm2 raises2) := by
  intro st bios c cfg llm raises h
  refine ⟨?_, ?_, ?_, ?_⟩ <;> simp [classifyHandler, h]

/-- C4 witness: the override-scoping theorem at a concrete store, batch,
override and a raising inner call. -/
theorem override_call_scoped_witness :
    (classifyHandler (initStore FileState.missing) ["b"] (some "crit")
        ⟨"m", none, none⟩ (fun _ => none) true).2 = initStore FileState.missing :=
  (override_call_scoped (initStore FileState.missing) ["b"] "crit"
    ⟨"m", none, none⟩ (fun _ => none) true (by decide)).1

/-! ### Config allow-list (C9) -/

/-- Allow-listed effort values are non-empty strings. -/
theorem mem_ALLOWED_EFFORT_ne_empty {x : String} (h : x ∈ ALLOWED_EFFORT) : x ≠ "" := by
  simp [ALLOWED_EFFORT] at h
  rcases h with h | h | h | h <;> simp [h]

/-- Allow-listed verbosity values are non-empty strings. -/
theorem mem_ALLOWED_VERBOSITY_ne_empty {x : String} (h : x ∈ ALLOWED_VERBOSITY) : x ≠ "" := by
  simp [ALLOWED_VERBOSITY] at h
  rcases h with h | h | h <;> simp [h]

/-- C9: a reasoning-effort or verbosity value is included in the remote
request if and only if, after lowercasing and trimming, it belongs to the
explicit allow-list; any unrecognised value (and the absence of a value) is
silently dropped.  The effective value is the call parameter, falling back to
the environment default when the parameter is falsy (`pyOrOpt`). -/
theorem config_enum_allowlist :
    ∀ (prompt : String) (ub : List String) (m e v : Option String) (cfg : EnvConfig),
      (∀ x, (buildRequest prompt ub m e v cfg).reasoning = some x → x ∈ ALLOWED_EFFORT)
      ∧ (∀ s, pyOrOpt e cfg.effortDefault = some s →
          pystripS (pylowerS s) ∈ ALLOWED_EFFORT →
          (buildRequest prompt ub m e v cfg).reasoning = some (pystripS (pylowerS s)))
      ∧ (∀ s, pyOrOpt e cfg.effortDefault = some s →
          pystripS (pylowerS s) ∉ ALLOWED_EFFORT →
          (buildRequest prompt ub m e v cfg).reasoning = none)
      ∧ (pyOrOpt e cfg.effortDefault = none →
          (buildRequest prompt ub m e v cfg).reasoning = none)
      ∧ (∀ x, (buildRequest prompt ub m e v cfg).text = some x → x ∈ ALLOWED_VERBOSITY)
      ∧ (∀ s, pyOrOpt v cfg.verbosityDefault = some s →
          pystripS (pylowerS s) ∈ ALLOWED_VERBOSITY →
          (buildRequest prompt ub m e v cfg).text = some (pystripS (pylowerS s)))
      ∧ (∀ s, pyOrOpt v cfg.verbosityDefault = some s →
          pystripS (pylowerS s) ∉ ALLOWED_VERBOSITY →
          (buildRequest prompt ub m e v cfg).text = none)
      ∧ (pyOrOpt v cfg.verbosityDefault = none →
          (buildRequest prompt ub m e v cfg).text = none) := by
  intro prompt ub m e v cfg
  refine ⟨?_, ?_, ?_, ?_, ?_, ?_, ?_, ?_⟩
  · intro x hx
    simp only [buildRequest] at hx
    unfold resolveEffort at hx
    cases hpo : pyOrOpt e cfg.effortDefault with
    | none => rw [hpo] at hx; simp [pyTruthy] at hx
    | some s =>
      rw [hpo] at hx
      simp only [] at hx
      by_cases hmem : pystripS (pylowerS s) ∈ ALLOWED_EFFORT
      · rw [if_pos hmem] at hx
        simp [pyTruthy, mem_ALLOWED_EFFORT_ne_empty hmem] at hx
        exact hx ▸ hmem
      · rw [if_neg hmem] at hx
        simp [pyTruthy] at hx
  · intro s hs hmem
    simp only [buildRequest]
    unfold resolveEffort
    rw [hs]
    simp only [if_pos hmem]
    simp [pyTruthy, mem_ALLOWED_EFFORT_ne_empty hmem]
  · intro s hs hmem
    simp only [buildRequest]
    unfold resolveEffort
    rw [hs]
    simp only [if_neg hmem]
    simp [pyTruthy]
  · intro hs
    simp only [buildRequest]
    unfold resolveEffort
    rw [hs]
    simp [pyTruthy]
  · intro x hx
    simp only [buildRequest] at hx
    unfold resolveVerbosity at hx
    cases hpo : pyOrOpt v cfg.verbosityDefault with
    | none => rw [hpo] at hx; simp [pyTruthy] at hx
    | some s =>
      rw [hpo] at hx
      simp only [] at hx
      by_cases hmem : pystripS (pylowerS s) ∈ ALLOWED_VERBOSITY
      · rw [if_pos hmem] at hx
        simp [pyTruthy, mem_ALLOWED_VERBOSITY_ne_empty hmem] at hx
        exact hx ▸ hmem
      · rw [if_neg hmem] at hx
        simp [pyTruthy] at hx
  · intro s hs hmem
    simp only [buildRequest]
    unfold resolveVerbosity
    rw [hs]
    simp only [if_pos hmem]
    simp [pyTruthy, mem_ALLOWED_VERBOSITY_ne_empty hmem]
  · intro s hs hmem
    simp only [buildRequest]
    unfold resolveVerbosity
    rw [hs]
    simp only [if_neg hmem]
    simp [pyTruthy]
  · intro hs
    simp only [buildRequest]
    unfold resolveVerbosity
    rw [hs]
    simp [pyTruthy]

/-- C9 witness: the allow-list theorem at a concrete unrecognised effort value,
which is silently dropped from the request. -/
theorem config_enum_allowlist_witness :
    (buildRequest "p" [] none (some "extreme") none ⟨"gpt-5-mini", none, none⟩).reasoning
      = none :=
  (config_enum_allowlist "p" [] none (some "extreme") none
      ⟨"gpt-5-mini", none, none⟩).2.2.1 "extreme" (by decide) (by decide)

/-! ### Classifier lemmas -/

theorem dictYN_empty : DictYN emptyDict := by
  intro u w h
  simp [emptyDict] at h

theorem dictYN_update {qr : String → Option String} (h : DictYN qr) {k v : String}
    (hv : v = "yes" ∨ v = "no") : DictYN (dictUpdate qr k v) := by
  intro u w hw
  unfold dictUpdate at hw
  split at hw
  · injection hw with h2
    exact h2 ▸ hv
  · exact h u w hw

theorem stage1Loop_dictYN :
    ∀ (items : List Profile) (k : Nat) (qr : String → Option String),
      DictYN qr → DictYN (stage1Loop k items qr).1 := by
  intro items
  induction items with
  | nil => intro k qr h; simpa [stage1Loop] using h
  | cons it rest ih =>
    intro k qr h
    unfold stage1Loop
    split
    · exact ih (k + 1) _ (dictYN_update h (Or.inl rfl))
    · exact ih (k + 1) _ (dictYN_update h (Or.inr rfl))

theorem normalizeFlag_yn (f : String) : normalizeFlag f = "yes" ∨ normalizeFlag f = "no" := by
  unfold normalizeFlag
  split
  · exact Or.inl rfl
  · exact Or.inr rfl

theorem computeFlags_mem_yn {reply : Option String} {n : Nat} {f : String}
    (h : f ∈ computeFlags reply n) : f = "yes" ∨ f = "no" := by
  unfold computeFlags at h
  cases reply with
  | none => exact Or.inr (List.eq_of_mem_replicate h)
  | some txt =>
    simp only [] at h
    split at h <;>
      (rcases List.mem_map.mp h with ⟨g, _, rfl⟩; exact normalizeFlag_yn g)

theorem pylower_yes : pylowerS "yes" = "yes" := by decide

theorem pylower_no : pylowerS "no" = "no" := by decide

theorem applyFlags_dictYN :
    ∀ (l : List (Nat × String)) (items : List Profile) (qr : String → Option String),
      DictYN qr → (∀ p ∈ l, p.2 = "yes" ∨ p.2 = "no") → DictYN (applyFlags items qr l) := by
  intro l
  induction l with
  | nil => intro items qr h _; simpa [applyFlags] using h
  | cons hd tl ih =>
    intro items qr h hall
    obtain ⟨idx, flag⟩ := hd
    unfold applyFlags
    apply ih
    · apply dictYN_update h
      have h2 := hall (idx, flag) (List.mem_cons_self _ _)
      change flag = "yes" ∨ flag = "no" at h2
      rcases h2 with h2 | h2 <;> subst h2
      · exact Or.inl pylower_yes
      · exact Or.inr pylower_no
    · intro p hp
      exact hall p (List.mem_cons_of_mem _ hp)

theorem finalDict_yn (items : List Profile) (prompt : String)
    (m e v : Option String) (cfg : EnvConfig) (llm : RequestKwargs → Option String) :
    DictYN (finalDict items prompt m e v cfg llm) := by
  unfold finalDict
  split
  · exact stage1Loop_dictYN _ 0 _ dictYN_empty
  · apply applyFlags_dictYN
    · exact stage1Loop_dictYN _ 0 _ dictYN_empty
    · intro p hp
      obtain ⟨a, b⟩ := p
      exact computeFlags_mem_yn (List.of_mem_zip hp).2

theorem annotated_yn :
    ∀ (items : List Profile) (prompt : String) (m e v : Option String) (cfg : EnvConfig)
      (llm : RequestKwargs → Option String) (pair : Profile × String),
      pair ∈ (classifyProfiles items prompt m e v cfg llm).annotated →
      pair.2 = "yes" ∨ pair.2 = "no" := by
  intro items prompt m e v cfg llm pair hp
  unfold classifyProfiles attachVerdicts at hp
  simp only [] at hp
  rcases List.mem_map.mp hp with ⟨it, _, rfl⟩
  cases hq : finalDict items prompt m e v cfg llm it.username with
  | none => right; simp [hq]
  | some w =>
    have := finalDict_yn items prompt m e v cfg llm it.username w hq
    simpa [hq] using this

theorem annotated_fst (items : List Profile) (prompt : String)
    (m e v : Option String) (cfg : EnvConfig) (llm : RequestKwargs → Option String) :
    (classifyProfiles items prompt m e v cfg llm).annotated.map Prod.fst = items := by
  unfold classifyProfiles attachVerdicts
  simp only [List.map_map]
  have h : ∀ l : List Profile,
      List.map (Prod.fst ∘ fun it =>
        (it, (finalDict items prompt m e v cfg llm it.username).getD "no")) l = l := by
    intro l
    induction l with
    | nil => rfl
    | cons x xs ih => simp only [List.map_cons, ih, Function.comp]
  exact h items

theorem stage1Loop_len :
    ∀ (items : List Profile) (k : Nat) (qr : String → Option String),
      (stage1Loop k items qr).2.1.length = (stage1Loop k items qr).2.2.length := by
  intro items
  induction items with
  | nil => intro k qr; rfl
  | cons it rest ih =>
    intro k qr
    unfold stage1Loop
    split
    · exact ih (k + 1) _
    · simp only [List.length_cons]
      rw [ih (k + 1) _]

theorem stage1Loop_ub :
    ∀ (items : List Profile) (k : Nat) (qr : String → Option String),
      (stage1Loop k items qr).2.1
        = (items.filter fun it => !profileMatches it).map cleanOf := by
  intro items
  induction items with
  | nil => intro k qr; rfl
  | cons it rest ih =>
    intro k qr
    unfold stage1Loop
    split <;> rename_i hm
    · rw [ih (k + 1) _]
      simp [List.filter_cons, hm]
    · simp only []
      rw [ih (k + 1) _]
      simp [List.filter_cons, hm]

theorem stage1Loop_ui :
    ∀ (items : List Profile) (k : Nat) (qr : String → Option String),
      (stage1Loop k items qr).2.2
        = ((items.enumFrom k).filter fun p => !profileMatches p.2).map Prod.fst := by
  intro items
  induction items with
  | nil => intro k qr; rfl
  | cons it rest ih =>
    intro k qr
    unfold stage1Loop
    split <;> rename_i hm
    · rw [ih (k + 1) _]
      simp [List.enumFrom, List.filter_cons, hm]
    · simp only []
      rw [ih (k + 1) _]
      simp [List.enumFrom, List.filter_cons, hm]

theorem enumFrom_mem_get? {α : Type _} :
    ∀ (l : List α) (n : Nat) (p : Nat × α),
      p ∈ l.enumFrom n → n ≤ p.1 ∧ l.get? (p.1 - n) = some p.2 := by
  intro l
  induction l with
  | nil => intro n p h; simp [List.enumFrom] at h
  | cons x xs ih =>
    intro n p h
    simp only [List.enumFrom, List.mem_cons] at h
    rcases h with rfl | h
    · exact ⟨Nat.le_refl _, by simp⟩
    · obtain ⟨h1, h2⟩ := ih (n + 1) p h
      refine ⟨Nat.le_trans (Nat.le_succ n) h1, ?_⟩
      have hd : p.1 - n = (p.1 - (n + 1)) + 1 := by omega
      rw [hd]
      simpa using h2

theorem zip_mem_left {α β : Type _} :
    ∀ (l₁ : List α) (l₂ : List β) (a : α),
      l₁.length = l₂.length → a ∈ l₁ → ∃ b, (a, b) ∈ l₁.zip l₂ := by
  intro l₁
  induction l₁ with
  | nil => intro l₂ a _ h; cases h
  | cons x xs ih =>
    intro l₂ a hlen ha
    cases l₂ with
    | nil => simp at hlen
    | cons y ys =>
      rcases List.mem_cons.mp ha with rfl | ha
      · exact ⟨y, List.mem_cons_self _ _⟩
      · obtain ⟨b, hb⟩ := ih ys a (by simpa using hlen) ha
        exact ⟨b, List.mem_cons_of_mem _ hb⟩

/-- Every unresolved index points at an item the stage-1 matcher rejected. -/
theorem mem_ui {items : List Profile} {i : Nat} (h : i ∈ (stage1Of items).2.2) :
    ∃ it, items.get? i = some it ∧ profileMatches it = false := by
  rw [stage1Of, stage1Loop_ui] at h
  rcases List.mem_map.mp h with ⟨p, hp, rfl⟩
  obtain ⟨hpe, hpf⟩ := List.mem_filter.mp hp
  obtain ⟨_, hget⟩ := enumFrom_mem_get? items 0 p hpe
  refine ⟨p.2, by simpa using hget, ?_⟩
  simpa using hpf

theorem applyFlags_allNo :
    ∀ (l : List (Nat × String)) (items : List Profile) (qr : String → Option String)
      (u : String),
      (∀ p ∈ l, pylowerS p.2 = "no") →
      (qr u = some "no" ∨ u ∈ l.map fun p => usernameAt items p.1) →
      applyFlags items qr l u = some "no" := by
  intro l
  induction l with
  | nil =>
    intro items qr u _ h
    rcases h with h | h
    · simpa [applyFlags] using h
    · simp at h
  | cons hd tl ih =>
    intro items qr u hall h
    obtain ⟨idx, flag⟩ := hd
    unfold applyFlags
    apply ih
    · intro p hp
      exact hall p (List.mem_cons_of_mem _ hp)
    · by_cases hu : u = usernameAt items idx
      · left
        have hno := hall (idx, flag) (List.mem_cons_self _ _)
        change pylowerS flag = "no" at hno
        simp [dictUpdate, hu, hno]
      · rcases h with h | h
        · left
          simp [dictUpdate, hu, h]
        · rw [List.map_cons] at h
          rcases List.mem_cons.mp h with h2 | h2
          · exact absurd h2 hu
          · exact Or.inr h2

theorem applyFlags_not_mem :
    ∀ (l : List (Nat × String)) (items : List Profile) (qr : String → Option String)
      (u : String),
      (∀ p ∈ l, usernameAt items p.1 ≠ u) →
      applyFlags items qr l u = qr u := by
  intro l
  induction l with
  | nil => intro items qr u _; rfl
  | cons hd tl ih =>
    intro items qr u hall
    obtain ⟨idx, flag⟩ := hd
    unfold applyFlags
    rw [ih items _ u fun p hp => hall p (List.mem_cons_of_mem _ hp)]
    have hne := hall (idx, flag) (List.mem_cons_self _ _)
    change usernameAt items idx ≠ u at hne
    simp only [dictUpdate]
    rw [if_neg (fun hu : u = usernameAt items idx => hne hu.symm)]

theorem normalizeFlag_no : normalizeFlag "no" = "no" := by decide

/-- Any raise, timeout, empty reply, or token-count mismatch yields the
all-`"no"` flag list. -/
theorem fallback_flags (reply : Option String) (n : Nat)
    (h : reply = none ∨ ∃ s, reply = some s ∧ (pysplit (pystripS s)).length ≠ n) :
    computeFlags reply n = List.replicate n "no" := by
  rcases h with rfl | ⟨s, rfl, hs⟩
  · rfl
  · unfold computeFlags
    simp only [if_pos hs, List.map_replicate, normalizeFlag_no]

theorem attachVerdicts_map_username (items : List Profile) (qr : String → Option String) :
    (attachVerdicts items qr).map (fun p : Profile × String => p.1.username)
      = items.map Profile.username := by
  unfold attachVerdicts
  induction items with
  | nil => rfl
  | cons x xs ih => simp only [List.map_cons, ih]

theorem stage1Loop_dict_not_mem :
    ∀ (items : List Profile) (k : Nat) (qr : String → Option String) (u : String),
      (∀ it ∈ items, it.username ≠ u) → (stage1Loop k items qr).1 u = qr u := by
  intro items
  induction items with
  | nil => intro k qr u _; rfl
  | cons it rest ih =>
    intro k qr u hall
    have hne : it.username ≠ u := hall it (List.mem_cons_self _ _)
    have hrest : ∀ it2 ∈ rest, it2.username ≠ u :=
      fun it2 h2 => hall it2 (List.mem_cons_of_mem _ h2)
    unfold stage1Loop
    split
    · rw [ih (k + 1) _ u hrest]
      simp only [dictUpdate]
      rw [if_neg (fun hu : u = it.username => hne hu.symm)]
    · simp only []
      rw [ih (k + 1) _ u hrest]
      simp only [dictUpdate]
      rw [if_neg (fun hu : u = it.username => hne hu.symm)]

theorem stage1Loop_dict_nodup :
    ∀ (items : List Profile) (k : Nat) (qr : String → Option String) (it : Profile),
      (items.map Profile.username).Nodup → it ∈ items →
      (stage1Loop k items qr).1 it.username
        = some (if profileMatches it then "yes" else "no") := by
  intro items
  induction items with
  | nil => intro k qr it _ h; cases h
  | cons x rest ih =>
    intro k qr it hnd hmem
    rw [List.map_cons, List.nodup_cons] at hnd
    obtain ⟨hx, hnd'⟩ := hnd
    rcases List.mem_cons.mp hmem with rfl | hmem'
    · have hrest : ∀ it2 ∈ rest, it2.username ≠ it.username := by
        intro it2 h2 heq
        exact hx (List.mem_map.mpr ⟨it2, h2, heq⟩)
      unfold stage1Loop
      split <;> rename_i hm
      · rw [stage1Loop_dict_not_mem rest (k + 1) _ _ hrest]
        simp [dictUpdate, hm]
      · simp only []
        rw [stage1Loop_dict_not_mem rest (k + 1) _ _ hrest]
        simp [dictUpdate, hm]
    · unfold stage1Loop
      split
      · exact ih (k + 1) _ it hnd' hmem'
      · simp only []
        exact ih (k + 1) _ it hnd' hmem'

/-! ### Claim theorems on the classifier -/

/-- C1: every input item is paired with exactly one final verdict, every final
verdict is `yes` or `no`, the returned list is exactly the usernames of the
items whose final verdict is `yes`, and it is a subset of the input usernames
in the original input order (a sublist). -/
theorem classify_output_spec :
    ∀ (items : List Profile) (prompt : String) (m e v : Option String)
      (cfg : EnvConfig) (llm : RequestKwargs → Option String),
      (classifyProfiles items prompt m e v cfg llm).annotated.map Prod.fst = items
      ∧ (∀ pair ∈ (classifyProfiles items prompt m e v cfg llm).annotated,
          pair.2 = "yes" ∨ pair.2 = "no")
      ∧ (classifyProfiles items prompt m e v cfg llm).yeses
          = yesList (classifyProfiles items prompt m e v cfg llm).annotated
      ∧ (classifyProfiles items prompt m e v cfg llm).yeses.Sublist
          (items.map Profile.username) := by
  intro items prompt m e v cfg llm
  refine ⟨annotated_fst items prompt m e v cfg llm,
    fun pair hp => annotated_yn items prompt m e v cfg llm pair hp, rfl, ?_⟩
  have h1 : (classifyProfiles items prompt m e v cfg llm).yeses
      = yesList (classifyProfiles items prompt m e v cfg llm).annotated := rfl
  rw [h1]
  unfold yesList
  have hsub : ((classifyProfiles items prompt m e v cfg llm).annotated.filter
        fun p => p.2 == "yes").Sublist
      (classifyProfiles items prompt m e v cfg llm).annotated :=
    List.filter_sublist _
  have hmap := hsub.map fun p : Profile × String => p.1.username
  have h2 : ((classifyProfiles items prompt m e v cfg llm).annotated.map
        fun p : Profile × String => p.1.username)
      = items.map Profile.username :=
    attachVerdicts_map_username items (finalDict items prompt m e v cfg llm)
  rw [h2] at hmap
  exact hmap

/-- C1 witness: the verdict-range conjunct at a concrete stage-1 match. -/
theorem classify_output_spec_witness :
    ((({ username := "u", bio := some "amen", extra := [] } : Profile), "yes")).2 = "yes"
    ∨ ((({ username := "u", bio := some "amen", extra := [] } : Profile), "yes")).2 = "no" :=
  (classify_output_spec [{ username := "u", bio := some "amen", extra := [] }] "p"
      none none none ⟨"m", none, none⟩ (fun _ => none)).2.1 _ (by decide)

/-- C2: whenever the remote reply for the call's request is an exception
(`none`), or splits into a number of tokens different from the number of
unresolved items, every unresolved item still appears in the output and its
final verdict is `no`. -/
theorem stage2_batch_fallback :
    ∀ (items : List Profile) (prompt : String) (m e v : Option String)
      (cfg : EnvConfig) (llm : RequestKwargs → Option String),
      (llm (requestOf items prompt m e v cfg) = none
        ∨ ∃ s, llm (requestOf items prompt m e v cfg) = some s
            ∧ (pysplit (pystripS s)).length ≠ (stage1Of items).2.1.length) →
      ∀ i ∈ (stage1Of items).2.2,
        ∃ it, items.get? i = some it
          ∧ (classifyProfiles items prompt m e v cfg llm).annotated.get? i
              = some (it, "no") := by
  intro items prompt m e v cfg llm hrep i hi
  obtain ⟨it, hget, _⟩ := mem_ui hi
  refine ⟨it, hget, ?_⟩
  have hlen : (stage1Of items).2.1.length = (stage1Of items).2.2.length :=
    stage1Loop_len items 0 emptyDict
  have hui_ne : (stage1Of items).2.2 ≠ [] := List.ne_nil_of_mem hi
  have hub_ne : ¬(stage1Of items).2.1.isEmpty = true := by
    intro h0
    apply hui_ne
    apply List.eq_nil_of_length_eq_zero
    rw [← hlen]
    exact List.length_eq_zero.mpr (List.isEmpty_iff.mp h0)
  have hflags : computeFlags (llm (requestOf items prompt m e v cfg))
      (stage1Of items).2.1.length
      = List.replicate (stage1Of items).2.1.length "no" :=
    fallback_flags _ _ hrep
  have hqr : finalDict items prompt m e v cfg llm it.username = some "no" := by
    rw [finalDict, if_neg hub_ne, hflags]
    apply applyFlags_allNo
    · intro p hp
      have := (List.of_mem_zip hp).2
      rw [List.eq_of_mem_replicate this]
      exact pylower_no
    · right
      have hzlen : (stage1Of items).2.2.length
          = (List.replicate (stage1Of items).2.1.length "no").length := by
        rw [List.length_replicate, ← hlen]
      obtain ⟨b, hb⟩ := zip_mem_left _ _ i hzlen hi
      refine List.mem_map.mpr ⟨(i, b), hb, ?_⟩
      show usernameAt items i = it.username
      unfold usernameAt
      rw [hget]
      rfl
  unfold classifyProfiles attachVerdicts
  simp only []
  rw [List.get?_map, hget]
  simp [hqr]

/-- C2 witness: the batch-fallback theorem at a one-item batch whose bio
matches nothing and a remote capability that raises. -/
theorem stage2_batch_fallback_witness :
    ∃ it, ([{ username := "u", bio := some "just a dog mom", extra := [] }] :
        List Profile).get? 0 = some it
      ∧ (classifyProfiles [{ username := "u", bio := some "just a dog mom", extra := [] }]
          "p" none none none ⟨"m", none, none⟩ (fun _ => none)).annotated.get? 0
          = some (it, "no") :=
  stage2_batch_fallback [{ username := "u", bio := some "just a dog mom", extra := [] }]
    "p" none none none ⟨"m", none, none⟩ (fun _ => none) (Or.inl rfl) 0 (by decide)

/-- C3: every unresolved (queued) index points at an item the stage-1 matcher
rejected — equivalently, a keyword/pattern match resolves an item at stage 1;
with batch-unique usernames a matching item's final verdict is `yes`; the
remote capability is invoked exactly once when the unresolved list is
non-empty and never otherwise, hence at most once per call and never when
every item matches stage 1. -/
theorem stage1_shortcircuit :
    (∀ (items : List Profile) (i : Nat), i ∈ (stage1Of items).2.2 →
      ∃ it, items.get? i = some it ∧ profileMatches it = false)
    ∧ (∀ (items : List Profile) (prompt : String) (m e v : Option String)
        (cfg : EnvConfig) (llm : RequestKwargs → Option String) (it : Profile),
        (items.map Profile.username).Nodup → it ∈ items → profileMatches it = true →
        (it, "yes") ∈ (classifyProfiles items prompt m e v cfg llm).annotated)
    ∧ (∀ (items : List Profile) (prompt : String) (m e v : Option String)
        (cfg : EnvConfig) (llm : RequestKwargs → Option String),
        (classifyProfiles items prompt m e v cfg llm).llmCalls
            = (if (stage1Of items).2.1.isEmpty then 0 else 1)
        ∧ (classifyProfiles items prompt m e v cfg llm).llmCalls ≤ 1)
    ∧ (∀ (items : List Profile) (prompt : String) (m e v : Option String)
        (cfg : EnvConfig) (llm : RequestKwargs → Option String),
        (∀ it ∈ items, profileMatches it = true) →
        (classifyProfiles items prompt m e v cfg llm).llmCalls = 0) := by
  refine ⟨fun items i hi => mem_ui hi, ?_, ?_, ?_⟩
  · intro items prompt m e v cfg llm it hnd hmem hm
    have hqr1 : (stage1Of items).1 it.username = some "yes" := by
      have := stage1Loop_dict_nodup items 0 emptyDict it hnd hmem
      rw [hm] at this
      simpa using this
    have hqr : finalDict items prompt m e v cfg llm it.username = some "yes" := by
      unfold finalDict
      split
      · exact hqr1
      · rw [applyFlags_not_mem _ items _ it.username ?_]
        · exact hqr1
        · intro p hp heq
          have hpi : p.1 ∈ (stage1Of items).2.2 := (List.of_mem_zip hp).1
          obtain ⟨it2, hget2, hm2⟩ := mem_ui hpi
          have huser : it2.username = it.username := by
            rw [← heq]
            unfold usernameAt
            rw [hget2]
            rfl
          have : it2 = it :=
            List.inj_on_of_nodup_map hnd (List.get?_mem hget2) hmem huser
          rw [this] at hm2
          rw [hm] at hm2
          cases hm2
    unfold classifyProfiles attachVerdicts
    simp only []
    refine List.mem_map.mpr ⟨it, hmem, ?_⟩
    rw [hqr]
    rfl
  · intro items prompt m e v cfg llm
    constructor
    · rfl
    · show (if (stage1Of items).2.1.isEmpty then 0 else 1) ≤ 1
      split
      · exact Nat.zero_le 1
      · exact Nat.le_refl 1
  · intro items prompt m e v cfg llm hall
    show (if (stage1Of items).2.1.isEmpty then 0 else 1) = 0
    have hub : (stage1Of items).2.1 = [] := by
      rw [stage1Of, stage1Loop_ub]
      rw [List.filter_eq_nil.mpr fun it hit => by simp [hall it hit]]
      rfl
    rw [hub]
    rfl

/-- C3 witness: the one-match batch — the matching item's final verdict is
`yes` (even though the remote capability would raise). -/
theorem stage1_shortcircuit_witness :
    (({ username := "u", bio := some "amen sister", extra := [] } : Profile), "yes")
      ∈ (classifyProfiles [{ username := "u", bio := some "amen sister", extra := [] }]
          "p" none none none ⟨"m", none, none⟩ (fun _ => none)).annotated :=
  stage1_shortcircuit.2.1 [{ username := "u", bio := some "amen sister", extra := [] }]
    "p" none none none ⟨"m", none, none⟩ (fun _ => none)
    { username := "u", bio := some "amen sister", extra := [] }
    (by decide) (by decide) (by decide)

/-- C6: every token is normalised to exactly `yes` or `no`; the result is
`yes` if and only if the trimmed token starts, case-insensitively, with the
letter `y`; and no raw token ever reaches a final verdict — every attached
verdict is `yes` or `no`. -/
theorem flag_normalization :
    (∀ f, normalizeFlag f = "yes" ∨ normalizeFlag f = "no")
    ∧ (∀ f, normalizeFlag f = "yes"
        ↔ ∃ c cs, pystripL f.data = c :: cs ∧ c.toLower = 'y')
    ∧ (∀ (items : List Profile) (prompt : String) (m e v : Option String)
        (cfg : EnvConfig) (llm : RequestKwargs → Option String)
        (pair : Profile × String),
        pair ∈ (classifyProfiles items prompt m e v cfg llm).annotated →
        pair.2 = "yes" ∨ pair.2 = "no") := by
  refine ⟨normalizeFlag_yn, ?_, annotated_yn⟩
  intro f
  unfold normalizeFlag
  cases hs : pystripL f.data with
  | nil => simp [pylowerL, startsL]
  | cons c cs =>
    simp only [pylowerL, List.map_cons, startsL]
    constructor
    · intro h
      split at h
      · rename_i hy
        have h2 : 'y' = c.toLower := by simpa using hy
        exact ⟨c, cs, rfl, h2.symm⟩
      · exact absurd h (by decide)
    · rintro ⟨c2, cs2, heq, hy⟩
      injection heq with h1 h2
      subst h1
      simp [hy, startsL]

/-- C6 witness: an unrecognised raw token (`"MAYBE"`) is normalised to `no`
rather than propagated into the final verdict. -/
theorem flag_normalization_witness :
    ((({ username := "u", bio := some "zzz", extra := [] } : Profile), "no")).2 = "yes"
    ∨ ((({ username := "u", bio := some "zzz", extra := [] } : Profile), "no")).2 = "no" :=
  flag_normalization.2.2 [{ username := "u", bio := some "zzz", extra := [] }] "p"
    none none none ⟨"m", none, none⟩ (fun _ => some "MAYBE") _ (by decide)

/-- C10: `classify_profiles` writes a verdict onto every caller-supplied item:
the output pairs each input item, unchanged and in order, with an
`is_christian` value; that value is the final verdict looked up in the final
`quick_results` dict, and is always `yes` or `no`; no other field of any item
is modified. -/
theorem classify_mutation_frame :
    ∀ (items : List Profile) (prompt : String) (m e v : Option String)
      (cfg : EnvConfig) (llm : RequestKwargs → Option String),
      (classifyProfiles items prompt m e v cfg llm).annotated.map Prod.fst = items
      ∧ (classifyProfiles items prompt m e v cfg llm).annotated.length = items.length
      ∧ (∀ pair ∈ (classifyProfiles items prompt m e v cfg llm).annotated,
          pair.2 = ((finalDict items prompt m e v cfg llm) pair.1.username).getD "no"
          ∧ (pair.2 = "yes" ∨ pair.2 = "no")) := by
  intro items prompt m e v cfg llm
  refine ⟨annotated_fst items prompt m e v cfg llm, ?_, ?_⟩
  · show (attachVerdicts items (finalDict items prompt m e v cfg llm)).length = items.length
    unfold attachVerdicts
    exact List.length_map _ _
  · intro pair hp
    refine ⟨?_, annotated_yn items prompt m e v cfg llm pair hp⟩
    unfold classifyProfiles attachVerdicts at hp
    simp only [] at hp
    rcases List.mem_map.mp hp with ⟨it, _, rfl⟩
    rfl

/-- C10 witness: the verdict-attachment conjunct at a concrete matching item. -/
theorem classify_mutation_frame_witness :
    ((({ username := "w", bio := some "faith", extra := [] } : Profile), "yes")).2
      = ((finalDict [{ username := "w", bio := some "faith", extra := [] }] "p"
          none none none ⟨"m", none, none⟩ (fun _ => none)) "w").getD "no"
    ∧ (((({ username := "w", bio := some "faith", extra := [] } : Profile), "yes")).2 = "yes"
      ∨ ((({ username := "w", bio := some "faith", extra := [] } : Profile), "yes")).2 = "no") :=
  (classify_mutation_frame [{ username := "w", bio := some "faith", extra := [] }] "p"
      none none none ⟨"m", none, none⟩ (fun _ => none)).2.2 _ (by decide)

end BioClassifier
